import Mathlib

/-!
Verification of the input unification engine of grenedalf
(src/options/frequency_input.cpp): sample name synthesis and filtering,
stream preparation for the pileup, sync and VCF input formats, region
filtering, and the memoised prepare_data_ entry point with its getters.

The format readers themselves (SimplePileupReader, SyncInputIterator,
VcfInputIterator of the genesis library) are external collaborators; where
their behaviour matters it is modelled from the spec's upstream record
contract, and each such definition says so in its doc comment.
-/

namespace Grenedalf

/-- Per-sample base counts at one site (genesis BaseCounts).
Modelled from the spec: counts of the four nucleotide bases plus
insertions, deletions and skipped reads, immutable once produced. -/
structure BaseCounts where
  a_count : Nat
  c_count : Nat
  g_count : Nat
  t_count : Nat
  n_count : Nat
  d_count : Nat
  deriving DecidableEq, Repr

/-- One genomic site with its per-sample counts (genesis Variant):
chromosome, 1-based position, and one BaseCounts per retained sample. -/
structure Variant where
  chromosome : String
  position : Nat
  samples : List BaseCounts
  deriving DecidableEq, Repr

/-- Error taxonomy of the input layer (spec section 7). The code throws
CLI ValidationError for configuration and unknown-sample failures and a
runtime error for a VCF without the allele-depth field; the spec names
these ConfigError, UnknownSampleError and UnsupportedInputError. -/
inductive InputError where
  | configError (msg : String)
  | emptyFileError (msg : String)
  | unknownSampleError (name : String)
  | unsupportedInputError (msg : String)
  | regionSyntaxError (msg : String)
  deriving DecidableEq, Repr

/-- One parsed pileup line. Modelled from the spec: the upstream
SimplePileupReader record carries chromosome, position and one per-sample
tally per parsed column. -/
structure PileupRecord where
  chromosome : String
  position : Nat
  samples : List BaseCounts
  deriving DecidableEq, Repr

/-- The content of an opened pileup file: its records in file order. -/
structure PileupFile where
  records : List PileupRecord
  deriving DecidableEq, Repr

/-- The content of an opened sync file: dereferencing the SyncInputIterator
yields a Variant directly, so its records are Variants in file order. -/
structure SyncFile where
  records : List Variant
  deriving DecidableEq, Repr

/-- A VCF header. Modelled from the spec: it embeds the sample names and
declares the available format fields. -/
structure VcfHeader where
  sample_names : List String
  format_fields : List String
  deriving DecidableEq, Repr

/-- One VCF record. Modelled from the spec: chromosome, position, whether
the record is a single-nucleotide variant, the number of alternative
alleles, the format fields present on the record, and one per-sample
allele-depth payload per header sample column. -/
structure VcfRecord where
  chromosome : String
  position : Nat
  is_snp : Bool
  alternatives_count : Nat
  format_fields : List String
  samples : List BaseCounts
  deriving DecidableEq, Repr

/-- The content of an opened VCF file: header and records in file order. -/
structure VcfFile where
  header : VcfHeader
  records : List VcfRecord
  deriving DecidableEq, Repr

/-- The option state of FrequencyInputOptions as the run functions read it.
Each file option carries the opened file content (the CLI option is set iff
the field is some). The include and exclude fields carry the name list that
get_sample_name_list resolves from the option value; an empty list means
the option was not given, matching the .value.empty() checks. The field
sample_name_pre is the sample name prefix option value. -/
structure FreqOptions where
  pileup_file : Option PileupFile
  sync_file : Option SyncFile
  vcf_file : Option VcfFile
  sample_name_pre : String
  filter_region : String
  filter_samples_include : List String
  filter_samples_exclude : List String
  deriving DecidableEq, Repr

/-- A parsed genomic region (genesis GenomeRegion). Modelled from the spec:
a chromosome with an inclusive position interval; start and stop both zero
mean the whole chromosome. -/
structure GenomeRegion where
  chromosome : String
  start : Nat
  stop : Nat
  deriving DecidableEq, Repr

/-- Parse an interval part of a region text: a single position, or
start-end, or start..end. Modelled from the spec's region grammar. -/
def parse_interval (r : String) : Option (Nat × Nat) :=
  match r.splitOn "-" with
  | [a, b] =>
    match a.toNat?, b.toNat? with
    | some x, some y => some (x, y)
    | _, _ => none
  | [a] =>
    match a.splitOn ".." with
    | [c, d] =>
      match c.toNat?, d.toNat? with
      | some x, some y => some (x, y)
      | _, _ => none
    | [c] => (c.toNat?).map (fun p => (p, p))
    | _ => none
  | _ => none

/-- Region parsing (genesis parse_genome_region). Modelled from the spec:
accepted grammars are chr, chr:pos, chr:start-end and chr:start..end;
anything else is malformed. -/
def parse_genome_region (s : String) : Option GenomeRegion :=
  match s.splitOn ":" with
  | [chr] => if chr.isEmpty then none else some { chromosome := chr, start := 0, stop := 0 }
  | [chr, r] =>
    if chr.isEmpty then none
    else
      match parse_interval r with
      | some (x, y) => some { chromosome := chr, start := x, stop := y }
      | none => none
  | _ => none

/-- Region membership (genesis is_covered). Modelled from the spec: the
chromosome must match exactly and, when an interval is present, the
position must fall within it, inclusive on both ends. -/
def is_covered (region : GenomeRegion) (chr : String) (pos : Nat) : Bool :=
  chr == region.chromosome &&
    ((region.start == 0 && region.stop == 0) ||
      (decide (region.start ≤ pos) && decide (pos ≤ region.stop)))

/-- The loop of get_sample_filter: for each name of the user list, find its
first index among the sample names, fail with the offending name when it is
absent, otherwise set that index of the mask to is_include. -/
def set_filter_names (sample_names : List String) (is_include : Bool) :
    List String → List Bool → Except InputError (List Bool)
  | [], acc => Except.ok acc
  | sn :: rest, acc =>
    match List.findIdx? (fun x => x == sn) sample_names with
    | none => Except.error (InputError.unknownSampleError sn)
    | some idx => set_filter_names sample_names is_include rest (acc.set idx is_include)

/-- get_sample_filter from frequency_input.cpp: builds the per-column keep
mask from the include or the exclude list. The mask is initialised to
is_exclude everywhere; each listed name sets its column to is_include; a
listed name that is not a sample name fails naming the offending
identifier. -/
def get_sample_filter (opts : FreqOptions) (sample_names : List String) :
    Except InputError (List Bool) :=
  let is_include := !opts.filter_samples_include.isEmpty
  let is_exclude := !opts.filter_samples_exclude.isEmpty
  let list := if is_include then opts.filter_samples_include else opts.filter_samples_exclude
  set_filter_names sample_names is_include list
    (List.replicate sample_names.length is_exclude)

/-- The loop of get_sample_filter_indices, started at index k: push every
index whose mask bit is true, in increasing order. -/
def filter_indices_from (k : Nat) : List Bool → List Nat
  | [] => []
  | b :: bs =>
    if b then k :: filter_indices_from (k + 1) bs else filter_indices_from (k + 1) bs

/-- get_sample_filter_indices from frequency_input.cpp: the indices of the
samples the mask retains, in increasing order. -/
def get_sample_filter_indices (mask : List Bool) : List Nat :=
  filter_indices_from 0 mask

/-- Keep the entries of xs whose mask bit is true. Modelled from the spec:
a pileup or sync reader opened with a sample filter parses only the
retained columns of each record. -/
def applyMask {α : Type} : List Bool → List α → List α
  | true :: ms, x :: xs => x :: applyMask ms xs
  | false :: ms, _ :: xs => applyMask ms xs
  | _, _ => []

/-- Sample names synthesized for formats without embedded names
(the loop pushing the prefix value followed by to_string(i+1) for each
column i of the first record): the 1-based column index follows the
prefix. -/
def make_raw_names (pre : String) (n : Nat) : List String :=
  (List.range n).map (fun i => pre ++ toString (i + 1))

/-- Names regenerated after sample filtering (the loop over sample_indices
pushing the prefix value followed by to_string(idx+1)): the suffix is the
retained original column index plus one. -/
def make_filtered_names (pre : String) (indices : List Nat) : List String :=
  indices.map (fun idx => pre ++ toString (idx + 1))

/-- The region filtering branch shared by the three prepare functions: an
empty region text installs no filter at all and the records pass through
directly; otherwise the region is parsed and the raw records are filtered
by is_covered before conversion. -/
def region_filter_records {α : Type} (region_text : String)
    (chr : α → String) (pos : α → Nat) (recs : List α) :
    Except InputError (List α) :=
  if region_text.isEmpty then Except.ok recs
  else
    match parse_genome_region region_text with
    | none => Except.error (InputError.regionSyntaxError region_text)
    | some region => Except.ok (recs.filter (fun r => is_covered region (chr r) (pos r)))

/-- The sample handling of prepare_data_pileup_: fail on an empty file;
synthesize one name per column of the first record; when an include or
exclude list is given, compute the mask and its indices, reopen the reader
with the mask (so each record keeps only the retained columns) and
regenerate the names from the retained original indices. -/
def pileup_samples_step (opts : FreqOptions) (file : PileupFile) :
    Except InputError (List String × List PileupRecord) :=
  match file.records with
  | [] => Except.error (InputError.emptyFileError "Invalid empty input (m)pileup file.")
  | first :: rest =>
    let smp_cnt := first.samples.length
    let raw_names := make_raw_names opts.sample_name_pre smp_cnt
    if opts.filter_samples_include.isEmpty && opts.filter_samples_exclude.isEmpty then
      Except.ok (raw_names, first :: rest)
    else
      match get_sample_filter opts raw_names with
      | Except.error e => Except.error e
      | Except.ok mask =>
        let indices := get_sample_filter_indices mask
        Except.ok
          ( make_filtered_names opts.sample_name_pre indices,
            (first :: rest).map (fun r => { r with samples := applyMask mask r.samples }) )

/-- Conversion of a pileup record to a Variant (genesis convert_to_variant).
Modelled from the spec: the same site with one BaseCounts per retained
sample column. -/
def pileup_convert_to_variant (r : PileupRecord) : Variant :=
  { chromosome := r.chromosome, position := r.position, samples := r.samples }

/-- prepare_data_pileup_ from frequency_input.cpp, as a function from the
option state and the opened file content to the resolved sample names and
the full sequence of Variants the generator yields over its lifetime. -/
def prepare_data_pileup (opts : FreqOptions) (file : PileupFile) :
    Except InputError (List String × List Variant) :=
  match pileup_samples_step opts file with
  | Except.error e => Except.error e
  | Except.ok (names, recs) =>
    match region_filter_records opts.filter_region
        (fun r => r.chromosome) (fun r => r.position) recs with
    | Except.error e => Except.error e
    | Except.ok recs2 => Except.ok (names, recs2.map pileup_convert_to_variant)

/-- The sample handling of prepare_data_sync_: identical to the pileup one,
except that the sync records are already Variants. -/
def sync_samples_step (opts : FreqOptions) (file : SyncFile) :
    Except InputError (List String × List Variant) :=
  match file.records with
  | [] => Except.error (InputError.emptyFileError "Invalid empty input sync file.")
  | first :: rest =>
    let smp_cnt := first.samples.length
    let raw_names := make_raw_names opts.sample_name_pre smp_cnt
    if opts.filter_samples_include.isEmpty && opts.filter_samples_exclude.isEmpty then
      Except.ok (raw_names, first :: rest)
    else
      match get_sample_filter opts raw_names with
      | Except.error e => Except.error e
      | Except.ok mask =>
        let indices := get_sample_filter_indices mask
        Except.ok
          ( make_filtered_names opts.sample_name_pre indices,
            (first :: rest).map (fun v => { v with samples := applyMask mask v.samples }) )

/-- prepare_data_sync_ from frequency_input.cpp: sync rows are Variants
already, so after the sample step only the region filter applies. -/
def prepare_data_sync (opts : FreqOptions) (file : SyncFile) :
    Except InputError (List String × List Variant) :=
  match sync_samples_step opts file with
  | Except.error e => Except.error e
  | Except.ok (names, recs) =>
    match region_filter_records opts.filter_region
        (fun v => v.chromosome) (fun v => v.position) recs with
    | Except.error e => Except.error e
    | Except.ok recs2 => Except.ok (names, recs2)

/-- The per-sample-name keep predicate installed at VCF open time: an
include list keeps exactly the listed names, an exclude list drops them,
no list keeps every name. Modelled from the spec: the resolved list is
passed directly to the VCF reader at construction time. -/
def vcf_name_keep (opts : FreqOptions) (n : String) : Bool :=
  if !opts.filter_samples_include.isEmpty then opts.filter_samples_include.contains n
  else if !opts.filter_samples_exclude.isEmpty then !(opts.filter_samples_exclude.contains n)
  else true

/-- Keep the entries of xs standing at positions whose header sample name
satisfies the predicate. Modelled from the spec: the VCF reader parses only
the retained sample columns of each record. -/
def applyNameMask {α : Type} (names : List String) (p : String → Bool)
    (xs : List α) : List α :=
  ((names.zip xs).filter (fun nx => p nx.1)).map Prod.snd

/-- The per-record column filtering the VCF reader performs when opened
with a sample name list. Modelled from the spec: only the retained sample
columns of each record are parsed; all other record fields are unchanged. -/
def vcf_column_filter (opts : FreqOptions) (header : VcfHeader) (r : VcfRecord) :
    VcfRecord :=
  { r with samples := applyNameMask header.sample_names (vcf_name_keep opts) r.samples }

/-- The first name of the include or exclude list that is not a sample name
of the header, if any. Modelled from the spec: any filter name not found
among the resolved sample names fails with UnknownSampleError naming the
offending identifier when the VCF reader is constructed with the list. -/
def vcf_unknown_name (opts : FreqOptions) (header : VcfHeader) : Option String :=
  (opts.filter_samples_include ++ opts.filter_samples_exclude).find?
    (fun n => !(header.sample_names.contains n))

/-- The content filter installed over the VCF input: only single-nucleotide
records with exactly one alternative allele that carry the AD format field
pass; everything else is skipped without an error. -/
def vcf_keep_record (r : VcfRecord) : Bool :=
  (r.is_snp && r.alternatives_count == 1) && r.format_fields.contains "AD"

/-- The opening part of prepare_data_vcf_: construct the reader with the
sample name list (failing on an unknown name), fail when the header does
not declare the AD format field, then record the filtered sample names and
install the content filter over the column-filtered records. -/
def vcf_samples_step (opts : FreqOptions) (file : VcfFile) :
    Except InputError (List String × List VcfRecord) :=
  match vcf_unknown_name opts file.header with
  | some n => Except.error (InputError.unknownSampleError n)
  | none =>
    if !(file.header.format_fields.contains "AD") then
      Except.error (InputError.unsupportedInputError
        "Cannot use VCF input file that does not have the AD format field.")
    else
      Except.ok
        ( file.header.sample_names.filter (vcf_name_keep opts),
          (file.records.map (vcf_column_filter opts file.header)).filter vcf_keep_record )

/-- Conversion of a VCF record to a Variant (genesis convert_to_variant).
Modelled from the spec: the same site with one BaseCounts per retained
sample column, read from the allele-depth payloads. -/
def vcf_convert_to_variant (r : VcfRecord) : Variant :=
  { chromosome := r.chromosome, position := r.position, samples := r.samples }

/-- prepare_data_vcf_ from frequency_input.cpp: open with the name filter,
require the AD header field, install the content filter, then the region
filter, then convert record by record. -/
def prepare_data_vcf (opts : FreqOptions) (file : VcfFile) :
    Except InputError (List String × List Variant) :=
  match vcf_samples_step opts file with
  | Except.error e => Except.error e
  | Except.ok (names, recs) =>
    match region_filter_records opts.filter_region
        (fun r => r.chromosome) (fun r => r.position) recs with
    | Except.error e => Except.error e
    | Except.ok recs2 => Except.ok (names, recs2.map vcf_convert_to_variant)

/-- The is_pileup + is_sync + is_vcf sum of prepare_data_: how many of the
three input file options are set. -/
def num_inputs (opts : FreqOptions) : Nat :=
  (if opts.pileup_file.isSome then 1 else 0) +
    (if opts.sync_file.isSome then 1 else 0) +
    (if opts.vcf_file.isSome then 1 else 0)

/-- The cached state of FrequencyInputOptions that prepare_data_ fills: the
type-erased generator, modelled by the full sequence of Variants it yields,
and the cached sample names. Both start empty. -/
structure PreparedState where
  generator : Option (List Variant)
  sample_names : List String
  deriving DecidableEq, Repr

/-- prepare_data_ from frequency_input.cpp: return at once when the data is
already prepared; require exactly one input file option; reject a sample
name prefix for formats with embedded names; then dispatch to the format
preparation, which fills the generator and the sample names. -/
def prepare_data (opts : FreqOptions) (st : PreparedState) :
    Except InputError PreparedState :=
  if st.generator.isSome || !st.sample_names.isEmpty then Except.ok st
  else if num_inputs opts ≠ 1 then
    Except.error (InputError.configError
      "Exactly one input file of one type has to be provided.")
  else if !opts.sample_name_pre.isEmpty &&
      (!opts.pileup_file.isSome && !opts.sync_file.isSome) then
    Except.error (InputError.configError
      "Can only use the sample name prefix option for input file formats that do not already have sample names.")
  else
    match opts.pileup_file with
    | some f =>
      (prepare_data_pileup opts f).map
        (fun r => { generator := some r.2, sample_names := r.1 })
    | none =>
      match opts.sync_file with
      | some f =>
        (prepare_data_sync opts f).map
          (fun r => { generator := some r.2, sample_names := r.1 })
      | none =>
        match opts.vcf_file with
        | some f =>
          (prepare_data_vcf opts f).map
            (fun r => { generator := some r.2, sample_names := r.1 })
        | none => Except.ok st

/-- sample_names() from frequency_input.cpp: prepare the data, then return
the cached names together with the state the getter leaves behind. -/
def call_sample_names (opts : FreqOptions) (st : PreparedState) :
    Except InputError (List String × PreparedState) :=
  (prepare_data opts st).map (fun st2 => (st2.sample_names, st2))

/-- get_iterator() from frequency_input.cpp: prepare the data, then return
the generator stream together with the state the getter leaves behind. -/
def call_get_iterator (opts : FreqOptions) (st : PreparedState) :
    Except InputError (Option (List Variant) × PreparedState) :=
  (prepare_data opts st).map (fun st2 => (st2.generator, st2))

/-- The CLI-level constraints declared in add_frequency_input_opts_to_app
and add_filter_opts_to_app: the three input file options mutually exclude
each other, and filter-samples-exclude excludes filter-samples-include.
Modelled from the spec: violating an excludes constraint fails CLI parsing
with a configuration error, regardless of format and before any reading. -/
def cli_parse (opts : FreqOptions) : Except InputError FreqOptions :=
  if 2 ≤ num_inputs opts then
    Except.error (InputError.configError
      "The input file options are mutually exclusive.")
  else if !opts.filter_samples_include.isEmpty &&
      !opts.filter_samples_exclude.isEmpty then
    Except.error (InputError.configError
      "The option filter-samples-exclude excludes filter-samples-include.")
  else Except.ok opts

/-- A pileup file all of whose records have the same number of sample
columns as its first record. Modelled from the spec: the upstream
sample_count contract reads the count off the first record of the stream. -/
def pileupWf (file : PileupFile) : Bool :=
  match file.records with
  | [] => true
  | r0 :: _ => file.records.all (fun r => r.samples.length == r0.samples.length)

/-- A sync file all of whose records have the same number of sample columns
as its first record. Modelled from the spec as for pileup files. -/
def syncWf (file : SyncFile) : Bool :=
  match file.records with
  | [] => true
  | r0 :: _ => file.records.all (fun v => v.samples.length == r0.samples.length)

/-- A VCF file all of whose records have one sample column per header
sample name. Modelled from the spec: every record carries one per-sample
payload per declared sample. -/
def vcfWf (file : VcfFile) : Bool :=
  file.records.all (fun r => r.samples.length == file.header.sample_names.length)

/-- The list get_sample_filter iterates over: the include list when it is
given, otherwise the exclude list. -/
def active_filter_list (opts : FreqOptions) : List String :=
  if !opts.filter_samples_include.isEmpty then opts.filter_samples_include
  else opts.filter_samples_exclude

/-- Example base counts used by concrete instantiations. -/
def ex_bc : BaseCounts := ⟨1, 2, 3, 4, 0, 0⟩

/-- Example pileup file with two records of three sample columns each. -/
def ex_pileup : PileupFile :=
  ⟨[⟨"chr1", 1, [ex_bc, ex_bc, ex_bc]⟩, ⟨"chr1", 5, [ex_bc, ex_bc, ex_bc]⟩]⟩

/-- Example sync file with one record of two sample columns. -/
def ex_sync : SyncFile := ⟨[⟨"chr1", 1, [ex_bc, ex_bc]⟩]⟩

/-- Example VCF file with two samples, the AD header field, one biallelic
SNP record and one non-SNP record. -/
def ex_vcf : VcfFile :=
  ⟨⟨["A", "B"], ["AD"]⟩,
    [⟨"chr1", 3, true, 1, ["AD"], [ex_bc, ex_bc]⟩,
      ⟨"chr1", 7, false, 1, ["AD"], [ex_bc, ex_bc]⟩]⟩

/-- Example VCF file whose header lacks the AD format field. -/
def ex_vcf_no_ad : VcfFile := ⟨⟨["A"], ["DP"]⟩, []⟩

/-- Example options: pileup input with prefix S and an include filter. -/
def ex_opts_pileup : FreqOptions := ⟨some ex_pileup, none, none, "S", "", ["S1", "S3"], []⟩

/-- Example options: sync input with no filters. -/
def ex_opts_sync : FreqOptions := ⟨none, some ex_sync, none, "", "", [], []⟩

/-- Example options: VCF input with an exclude filter. -/
def ex_opts_vcf : FreqOptions := ⟨none, none, some ex_vcf, "", "", [], ["B"]⟩

/-- Example options: VCF input without AD, no filters. -/
def ex_opts_vcf_no_ad : FreqOptions := ⟨none, none, some ex_vcf_no_ad, "", "", [], []⟩

/-- Example options: no input file configured at all. -/
def ex_opts_none : FreqOptions := ⟨none, none, none, "", "", [], []⟩

/-- Example options: both the include and the exclude filter given. -/
def ex_opts_both : FreqOptions := ⟨some ex_pileup, none, none, "", "", ["A"], ["B"]⟩

/-- Example options: pileup input whose include filter names an unknown
sample. -/
def ex_opts_unknown : FreqOptions := ⟨some ex_pileup, none, none, "S", "", ["S9"], []⟩

/-- Example options: sync input whose include filter names an unknown
sample. -/
def ex_opts_sync_unknown : FreqOptions := ⟨none, some ex_sync, none, "S", "", ["S9"], []⟩

/-- Example options: VCF input whose include filter names an unknown
sample. -/
def ex_opts_vcf_unknown : FreqOptions := ⟨none, none, some ex_vcf, "", "", ["Z"], []⟩

/-- The fresh cache state of a FrequencyInputOptions object. -/
def ex_state0 : PreparedState := ⟨none, []⟩

/-- The cache state after preparing ex_opts_sync from the fresh state. -/
def ex_prepared : PreparedState := ⟨some [⟨"chr1", 1, [ex_bc, ex_bc]⟩], ["1", "2"]⟩

theorem set_filter_names_length (names : List String) (inc : Bool) :
    ∀ (l : List String) (acc mask : List Bool),
      set_filter_names names inc l acc = Except.ok mask → mask.length = acc.length := by
  intro l
  induction l with
  | nil =>
    intro acc mask h
    simp only [set_filter_names, Except.ok.injEq] at h
    rw [← h]
  | cons sn rest ih =>
    intro acc mask h
    simp only [set_filter_names] at h
    cases hf : List.findIdx? (fun x => x == sn) names with
    | none => rw [hf] at h; simp at h
    | some idx =>
      rw [hf] at h
      have := ih (acc.set idx inc) mask h
      simpa [List.length_set] using this

theorem get_sample_filter_length (opts : FreqOptions) (names : List String)
    (mask : List Bool) (h : get_sample_filter opts names = Except.ok mask) :
    mask.length = names.length := by
  unfold get_sample_filter at h
  have := set_filter_names_length names _ _ _ _ h
  simpa [List.length_replicate] using this

theorem make_raw_names_length (pre : String) (n : Nat) :
    (make_raw_names pre n).length = n := by
  simp [make_raw_names]

theorem applyMask_length_eq_indices {α : Type} :
    ∀ (mask : List Bool) (k : Nat) (xs : List α), mask.length = xs.length →
      (applyMask mask xs).length = (filter_indices_from k mask).length := by
  intro mask
  induction mask with
  | nil => intro k xs h; simp [applyMask, filter_indices_from]
  | cons b ms ih =>
    intro k xs h
    cases xs with
    | nil => simp at h
    | cons x xs =>
      have h2 : ms.length = xs.length := by simpa using h
      cases b with
      | true => simp [applyMask, filter_indices_from, ih (k + 1) xs h2]
      | false => simp [applyMask, filter_indices_from, ih (k + 1) xs h2]

theorem applyMask_sublist {α : Type} :
    ∀ (mask : List Bool) (xs : List α), List.Sublist (applyMask mask xs) xs := by
  intro mask
  induction mask with
  | nil => intro xs; cases xs <;> simp [applyMask]
  | cons b ms ih =>
    intro xs
    cases xs with
    | nil => simp [applyMask]
    | cons x xs =>
      cases b with
      | true =>
        have : applyMask (true :: ms) (x :: xs) = x :: applyMask ms xs := rfl
        rw [this]
        exact List.Sublist.cons₂ x (ih xs)
      | false =>
        have : applyMask (false :: ms) (x :: xs) = applyMask ms xs := rfl
        rw [this]
        exact List.Sublist.cons x (ih xs)

theorem filter_indices_from_ge :
    ∀ (bs : List Bool) (k i : Nat), i ∈ filter_indices_from k bs → k ≤ i := by
  intro bs
  induction bs with
  | nil => intro k i h; simp [filter_indices_from] at h
  | cons b ms ih =>
    intro k i h
    cases b with
    | true =>
      simp only [filter_indices_from, if_true, List.mem_cons] at h
      rcases h with h | h
      · omega
      · have := ih (k + 1) i h; omega
    | false =>
      simp only [filter_indices_from, if_false] at h
      have := ih (k + 1) i h; omega

theorem filter_indices_from_pairwise :
    ∀ (bs : List Bool) (k : Nat), (filter_indices_from k bs).Pairwise (· < ·) := by
  intro bs
  induction bs with
  | nil => intro k; simp [filter_indices_from]
  | cons b ms ih =>
    intro k
    cases b with
    | true =>
      simp only [filter_indices_from, if_true]
      refine List.Pairwise.cons ?_ (ih (k + 1))
      intro i hi
      have := filter_indices_from_ge ms (k + 1) i hi
      omega
    | false => simpa [filter_indices_from] using ih (k + 1)

theorem filter_indices_map_applyMask {α : Type} (f : Nat → α) :
    ∀ (bs : List Bool) (k : Nat),
      (filter_indices_from k bs).map f = applyMask bs ((List.range' k bs.length).map f) := by
  intro bs
  induction bs with
  | nil => intro k; simp [filter_indices_from, applyMask]
  | cons b ms ih =>
    intro k
    have hr : List.range' k (ms.length + 1) = k :: List.range' (k + 1) ms.length :=
      List.range'_succ k ms.length 1
    cases b with
    | true =>
      have hl : filter_indices_from k (true :: ms) = k :: filter_indices_from (k + 1) ms := rfl
      have hm : applyMask (true :: ms) (f k :: (List.range' (k + 1) ms.length).map f) =
          f k :: applyMask ms ((List.range' (k + 1) ms.length).map f) := rfl
      rw [hl, List.length_cons, hr, List.map_cons, List.map_cons, hm, ih (k + 1)]
    | false =>
      have hl : filter_indices_from k (false :: ms) = filter_indices_from (k + 1) ms := rfl
      have hm : applyMask (false :: ms) (f k :: (List.range' (k + 1) ms.length).map f) =
          applyMask ms ((List.range' (k + 1) ms.length).map f) := rfl
      rw [hl, List.length_cons, hr, List.map_cons, hm, ih (k + 1)]

theorem make_filtered_names_applyMask (pre : String) (mask : List Bool) :
    make_filtered_names pre (get_sample_filter_indices mask) =
      applyMask mask (make_raw_names pre mask.length) := by
  unfold make_filtered_names get_sample_filter_indices make_raw_names
  rw [List.range_eq_range']
  exact filter_indices_map_applyMask (fun i => pre ++ toString (i + 1)) mask 0

theorem applyNameMask_length {α : Type} (p : String → Bool) :
    ∀ (names : List String) (xs : List α), names.length = xs.length →
      (applyNameMask names p xs).length = (names.filter p).length := by
  intro names
  induction names with
  | nil => intro xs h; simp [applyNameMask]
  | cons n ns ih =>
    intro xs h
    cases xs with
    | nil => simp at h
    | cons x xs =>
      have h2 : ns.length = xs.length := by simpa using h
      have hrec := ih xs h2
      simp only [applyNameMask] at hrec ⊢
      by_cases hp : p n = true
      · simp [List.zip_cons_cons, List.filter_cons, hp, hrec]
      · simp only [Bool.not_eq_true] at hp
        simp [List.zip_cons_cons, List.filter_cons, hp, hrec]

theorem region_filter_records_empty {α : Type} (chr : α → String) (pos : α → Nat)
    (recs : List α) : region_filter_records "" chr pos recs = Except.ok recs := rfl

theorem region_filter_records_mem {α : Type} (s : String) (chr : α → String)
    (pos : α → Nat) (recs out : List α)
    (h : region_filter_records s chr pos recs = Except.ok out) :
    ∀ r ∈ out, r ∈ recs := by
  unfold region_filter_records at h
  split at h
  · simp only [Except.ok.injEq] at h
    subst h
    exact fun r hr => hr
  · split at h
    · simp at h
    · simp only [Except.ok.injEq] at h
      subst h
      exact fun r hr => List.mem_of_mem_filter hr

theorem pileup_samples_step_length (opts : FreqOptions) (file : PileupFile)
    (names : List String) (recs : List PileupRecord)
    (hwf : pileupWf file = true)
    (h : pileup_samples_step opts file = Except.ok (names, recs)) :
    ∀ r ∈ recs, r.samples.length = names.length := by
  obtain ⟨records⟩ := file
  cases records with
  | nil => simp [pileup_samples_step] at h
  | cons first rest =>
    simp only [pileup_samples_step] at h
    simp only [pileupWf, List.all_eq_true, beq_iff_eq] at hwf
    split at h
    · simp only [Except.ok.injEq, Prod.mk.injEq] at h
      obtain ⟨hn, hrecs⟩ := h
      subst hn; subst hrecs
      intro r hr
      rw [hwf r hr, make_raw_names_length]
    · cases hgs : get_sample_filter opts
          (make_raw_names opts.sample_name_pre first.samples.length) with
      | error e => rw [hgs] at h; simp at h
      | ok mask =>
        rw [hgs] at h
        simp only [Except.ok.injEq, Prod.mk.injEq] at h
        obtain ⟨hn, hrecs⟩ := h
        subst hn; subst hrecs
        intro r hr
        simp only [List.mem_map] at hr
        obtain ⟨r0, hr0, hconv⟩ := hr
        subst hconv
        have hmlen : mask.length = first.samples.length := by
          rw [get_sample_filter_length opts _ mask hgs, make_raw_names_length]
        have hr0len : r0.samples.length = first.samples.length := hwf r0 hr0
        simp only [make_filtered_names, get_sample_filter_indices, List.length_map]
        exact applyMask_length_eq_indices mask 0 r0.samples (by omega)

theorem sync_samples_step_length (opts : FreqOptions) (file : SyncFile)
    (names : List String) (recs : List Variant)
    (hwf : syncWf file = true)
    (h : sync_samples_step opts file = Except.ok (names, recs)) :
    ∀ v ∈ recs, v.samples.length = names.length := by
  obtain ⟨records⟩ := file
  cases records with
  | nil => simp [sync_samples_step] at h
  | cons first rest =>
    simp only [sync_samples_step] at h
    simp only [syncWf, List.all_eq_true, beq_iff_eq] at hwf
    split at h
    · simp only [Except.ok.injEq, Prod.mk.injEq] at h
      obtain ⟨hn, hrecs⟩ := h
      subst hn; subst hrecs
      intro v hv
      rw [hwf v hv, make_raw_names_length]
    · cases hgs : get_sample_filter opts
          (make_raw_names opts.sample_name_pre first.samples.length) with
      | error e => rw [hgs] at h; simp at h
      | ok mask =>
        rw [hgs] at h
        simp only [Except.ok.injEq, Prod.mk.injEq] at h
        obtain ⟨hn, hrecs⟩ := h
        subst hn; subst hrecs
        intro v hv
        simp only [List.mem_map] at hv
        obtain ⟨v0, hv0, hconv⟩ := hv
        subst hconv
        have hmlen : mask.length = first.samples.length := by
          rw [get_sample_filter_length opts _ mask hgs, make_raw_names_length]
        have hv0len : v0.samples.length = first.samples.length := hwf v0 hv0
        simp only [make_filtered_names, get_sample_filter_indices, List.length_map]
        exact applyMask_length_eq_indices mask 0 v0.samples (by omega)

theorem vcf_samples_step_length (opts : FreqOptions) (file : VcfFile)
    (names : List String) (recs : List VcfRecord)
    (hwf : vcfWf file = true)
    (h : vcf_samples_step opts file = Except.ok (names, recs)) :
    ∀ r ∈ recs, r.samples.length = names.length := by
  unfold vcf_samples_step at h
  unfold vcfWf at hwf
  simp only [List.all_eq_true, beq_iff_eq] at hwf
  split at h
  · simp at h
  · split at h
    · simp at h
    · simp only [Except.ok.injEq, Prod.mk.injEq] at h
      obtain ⟨hn, hrecs⟩ := h
      subst hn; subst hrecs
      intro r hr
      have hr2 := List.mem_of_mem_filter hr
      simp only [List.mem_map] at hr2
      obtain ⟨r0, hr0, hconv⟩ := hr2
      subst hconv
      simp only [vcf_column_filter]
      exact applyNameMask_length (vcf_name_keep opts) file.header.sample_names
        r0.samples (hwf r0 hr0).symm

theorem findIdx_beq_none (x : String) (l : List String)
    (h : List.findIdx? (fun y => y == x) l = none) : x ∉ l := by
  intro hx
  have h2 : (List.findIdx? (fun y => y == x) l).isSome =
      l.any (fun y => y == x) := List.findIdx?_isSome
  rw [h] at h2
  simp at h2
  exact h2 x hx rfl

theorem set_filter_names_unknown (names : List String) (inc : Bool) :
    ∀ (l : List String) (acc : List Bool) (sn : String), sn ∈ l → sn ∉ names →
      ∃ sn2, sn2 ∉ names ∧
        set_filter_names names inc l acc =
          Except.error (InputError.unknownSampleError sn2) := by
  intro l
  induction l with
  | nil => intro acc sn hmem hnot; simp at hmem
  | cons x rest ih =>
    intro acc sn hmem hnot
    cases hf : List.findIdx? (fun y => y == x) names with
    | none =>
      refine ⟨x, findIdx_beq_none x names hf, ?_⟩
      simp [set_filter_names, hf]
    | some idx =>
      have hxmem : x ∈ names := by
        have h2 : (List.findIdx? (fun y => y == x) names).isSome =
            names.any (fun y => y == x) := List.findIdx?_isSome
        rw [hf] at h2
        have h3 : names.any (fun y => y == x) = true := by rw [← h2]; rfl
        simp only [List.any_eq_true, beq_iff_eq] at h3
        obtain ⟨y, hy, hyx⟩ := h3
        exact hyx ▸ hy
      have hsn : sn ∈ rest := by
        rcases List.mem_cons.mp hmem with h | h
        · exact absurd (h ▸ hxmem) hnot
        · exact h
      obtain ⟨sn2, hsn2, heq⟩ := ih (acc.set idx inc) sn hsn hnot
      exact ⟨sn2, hsn2, by simp [set_filter_names, hf, heq]⟩

theorem get_sample_filter_unknown (opts : FreqOptions) (raw : List String)
    (sn : String) (hmem : sn ∈ active_filter_list opts) (hnot : sn ∉ raw) :
    ∃ sn2, sn2 ∉ raw ∧
      get_sample_filter opts raw =
        Except.error (InputError.unknownSampleError sn2) := by
  unfold get_sample_filter
  unfold active_filter_list at hmem
  exact set_filter_names_unknown raw _ _ _ sn hmem hnot

/-- C2: when zero of the pileup, sync and VCF input files are configured,
or more than one, preparing the stream from a fresh (not yet prepared)
options state fails with ConfigError; the check happens before any file is
opened, so the error result carries no stream and no record is yielded. -/
theorem C2_exactly_one_input_format (opts : FreqOptions) (st : PreparedState)
    (hg : st.generator = none) (hn : st.sample_names = [])
    (hnum : num_inputs opts ≠ 1) :
    prepare_data opts st = Except.error (InputError.configError
      "Exactly one input file of one type has to be provided.") := by
  unfold prepare_data
  simp [hg, hn, hnum]

/-- C2 witness: with no input file configured, the fresh state fails to
prepare with the ConfigError. -/
theorem C2_exactly_one_input_format_witness :
    prepare_data ex_opts_none ex_state0 = Except.error (InputError.configError
      "Exactly one input file of one type has to be provided.") :=
  C2_exactly_one_input_format ex_opts_none ex_state0 rfl rfl (by decide)

/-- C3: supplying both the samples-include and the samples-exclude filter
options in the same invocation fails CLI parsing with ConfigError,
whatever the input format is. -/
theorem C3_include_exclude_mutually_exclusive (opts : FreqOptions)
    (hi : opts.filter_samples_include ≠ [])
    (he : opts.filter_samples_exclude ≠ []) :
    ∃ msg, cli_parse opts = Except.error (InputError.configError msg) := by
  unfold cli_parse
  by_cases h2 : 2 ≤ num_inputs opts
  · exact ⟨_, by rw [if_pos h2]⟩
  · have hc : (!opts.filter_samples_include.isEmpty &&
        !opts.filter_samples_exclude.isEmpty) = true := by
      simp only [Bool.and_eq_true, Bool.not_eq_true']
      constructor
      · cases hb : opts.filter_samples_include.isEmpty with
        | false => rfl
        | true => exact absurd (List.isEmpty_iff.mp hb) hi
      · cases hb : opts.filter_samples_exclude.isEmpty with
        | false => rfl
        | true => exact absurd (List.isEmpty_iff.mp hb) he
    exact ⟨_, by rw [if_neg h2, if_pos hc]⟩

/-- C3 witness: an options object with both filter lists set fails CLI
parsing with a ConfigError. -/
theorem C3_include_exclude_mutually_exclusive_witness :
    ∃ msg, cli_parse ex_opts_both = Except.error (InputError.configError msg) :=
  C3_include_exclude_mutually_exclusive ex_opts_both (by decide) (by decide)

/-- C5: for pileup and sync inputs the sample names are synthesized as the
prefix followed by the 1-based column index before filtering, and the names
surviving a filter are exactly the synthesized names of the retained
original columns: filtering removes names and never renumbers, so the
suffix always reflects the original 1-based column index. The second part
states this on the pipeline: whenever a sample filter is active, the names
a successful pileup sample step returns are the masked raw names. -/
theorem C5_filtered_names_keep_original_index :
    (∀ (pre : String) (mask : List Bool),
        make_filtered_names pre (get_sample_filter_indices mask) =
          applyMask mask (make_raw_names pre mask.length)) ∧
    (∀ (opts : FreqOptions) (file : PileupFile) (names : List String)
        (recs : List PileupRecord),
        (opts.filter_samples_include.isEmpty &&
          opts.filter_samples_exclude.isEmpty) = false →
        pileup_samples_step opts file = Except.ok (names, recs) →
        ∃ mask, get_sample_filter opts
            (make_raw_names opts.sample_name_pre mask.length) = Except.ok mask ∧
          names = applyMask mask (make_raw_names opts.sample_name_pre mask.length)) := by
  constructor
  · intro pre mask
    exact make_filtered_names_applyMask pre mask
  · intro opts file names recs hfil h
    obtain ⟨records⟩ := file
    cases records with
    | nil => simp [pileup_samples_step] at h
    | cons first rest =>
      simp only [pileup_samples_step] at h
      rw [hfil] at h
      simp only [Bool.false_eq_true, if_false] at h
      cases hgs : get_sample_filter opts
          (make_raw_names opts.sample_name_pre first.samples.length) with
      | error e => rw [hgs] at h; simp at h
      | ok mask =>
        rw [hgs] at h
        simp only [Except.ok.injEq, Prod.mk.injEq] at h
        obtain ⟨hnm, hrecs⟩ := h
        have hmlen : mask.length = first.samples.length := by
          rw [get_sample_filter_length opts _ mask hgs, make_raw_names_length]
        refine ⟨mask, ?_, ?_⟩
        · rw [hmlen]; exact hgs
        · rw [← hnm, ← make_filtered_names_applyMask]

/-- C5 witness: with the include filter S1, S3 over three synthesized
columns, the pipeline names are the masked synthesized names, keeping the
original suffixes 1 and 3. -/
theorem C5_filtered_names_keep_original_index_witness :
    make_filtered_names "S" (get_sample_filter_indices [true, false, true]) =
      applyMask [true, false, true] (make_raw_names "S" 3) ∧
    (∃ mask, get_sample_filter ex_opts_pileup
        (make_raw_names ex_opts_pileup.sample_name_pre mask.length) = Except.ok mask ∧
      ["S1", "S3"] = applyMask mask
        (make_raw_names ex_opts_pileup.sample_name_pre mask.length)) :=
  ⟨C5_filtered_names_keep_original_index.1 "S" [true, false, true],
    C5_filtered_names_keep_original_index.2 ex_opts_pileup ex_pileup
      ["S1", "S3"]
      [⟨"chr1", 1, [ex_bc, ex_bc]⟩, ⟨"chr1", 5, [ex_bc, ex_bc]⟩]
      (by decide) (by rfl)⟩

/-- C6: sample filtering is order preserving. For any raw name sequence and
any mask the resolver accepts, the retained names are a subsequence of the
raw names in original order and the retained original indices are strictly
increasing; for VCF the filtered header names are likewise a subsequence of
the unfiltered header names. -/
theorem C6_sample_filtering_order_preserving :
    (∀ (opts : FreqOptions) (raw : List String) (mask : List Bool),
        get_sample_filter opts raw = Except.ok mask →
        List.Sublist (applyMask mask raw) raw ∧
        List.Pairwise (fun i j => i < j) (get_sample_filter_indices mask)) ∧
    (∀ (opts : FreqOptions) (header : VcfHeader),
        List.Sublist (header.sample_names.filter (vcf_name_keep opts))
          header.sample_names) := by
  constructor
  · intro opts raw mask _
    exact ⟨applyMask_sublist mask raw, filter_indices_from_pairwise mask 0⟩
  · intro opts header
    exact List.filter_sublist header.sample_names

/-- C6 witness: the include filter S1, S3 over S1, S2, S3 yields the mask
true, false, true; the retained names are a subsequence and the retained
indices are strictly increasing. -/
theorem C6_sample_filtering_order_preserving_witness :
    List.Sublist (applyMask [true, false, true] ["S1", "S2", "S3"])
      ["S1", "S2", "S3"] ∧
    List.Pairwise (fun i j => i < j)
      (get_sample_filter_indices [true, false, true]) :=
  C6_sample_filtering_order_preserving.1 ex_opts_pileup ["S1", "S2", "S3"]
    [true, false, true] (by rfl)

/-- C7: a VCF input whose header does not declare the AD format field fails
with UnsupportedInputError; the error is raised while opening, so the
result carries no stream and no record is yielded. -/
theorem C7_vcf_missing_ad_field (opts : FreqOptions) (file : VcfFile)
    (hu : vcf_unknown_name opts file.header = none)
    (had : file.header.format_fields.contains "AD" = false) :
    prepare_data_vcf opts file = Except.error (InputError.unsupportedInputError
      "Cannot use VCF input file that does not have the AD format field.") := by
  unfold prepare_data_vcf vcf_samples_step
  rw [hu, had]
  rfl

/-- C7 witness: a VCF whose header declares only DP fails with the
UnsupportedInputError. -/
theorem C7_vcf_missing_ad_field_witness :
    prepare_data_vcf ex_opts_vcf_no_ad ex_vcf_no_ad =
      Except.error (InputError.unsupportedInputError
        "Cannot use VCF input file that does not have the AD format field.") :=
  C7_vcf_missing_ad_field ex_opts_vcf_no_ad ex_vcf_no_ad rfl rfl

/-- C9: when the region option is empty, no filtering predicate is
installed and the prepared stream is element for element the conversion of
every record the sample step yields, for all three input formats. -/
theorem C9_empty_region_passthrough :
    (∀ (opts : FreqOptions) (file : PileupFile) (names : List String)
        (recs : List PileupRecord),
        opts.filter_region = "" →
        pileup_samples_step opts file = Except.ok (names, recs) →
        prepare_data_pileup opts file =
          Except.ok (names, recs.map pileup_convert_to_variant)) ∧
    (∀ (opts : FreqOptions) (file : SyncFile) (names : List String)
        (recs : List Variant),
        opts.filter_region = "" →
        sync_samples_step opts file = Except.ok (names, recs) →
        prepare_data_sync opts file = Except.ok (names, recs)) ∧
    (∀ (opts : FreqOptions) (file : VcfFile) (names : List String)
        (recs : List VcfRecord),
        opts.filter_region = "" →
        vcf_samples_step opts file = Except.ok (names, recs) →
        prepare_data_vcf opts file =
          Except.ok (names, recs.map vcf_convert_to_variant)) := by
  refine ⟨?_, ?_, ?_⟩
  · intro opts file names recs hr hs
    unfold prepare_data_pileup
    rw [hs, hr]
    rfl
  · intro opts file names recs hr hs
    unfold prepare_data_sync
    rw [hs, hr]
    rfl
  · intro opts file names recs hr hs
    unfold prepare_data_vcf
    rw [hs, hr]
    rfl

/-- C9 witness: the sync example with an empty region yields exactly its
records, unfiltered and in order. -/
theorem C9_empty_region_passthrough_witness :
    prepare_data_sync ex_opts_sync ex_sync =
      Except.ok (["1", "2"], [⟨"chr1", 1, [ex_bc, ex_bc]⟩]) :=
  C9_empty_region_passthrough.2.1 ex_opts_sync ex_sync ["1", "2"]
    [⟨"chr1", 1, [ex_bc, ex_bc]⟩] rfl (by rfl)

/-- C1: for each of the three formats, every Variant a prepared stream
yields over its whole lifetime carries exactly one BaseCounts per resolved
sample: its samples length equals the length of the post-filter sample name
list reported when the stream was opened. The file is assumed column
consistent, as the upstream reader contract reads the sample count off the
first record. -/
theorem C1_sample_count_matches_stream :
    (∀ (opts : FreqOptions) (file : PileupFile) (names : List String)
        (vars : List Variant),
        pileupWf file = true →
        prepare_data_pileup opts file = Except.ok (names, vars) →
        ∀ v ∈ vars, v.samples.length = names.length) ∧
    (∀ (opts : FreqOptions) (file : SyncFile) (names : List String)
        (vars : List Variant),
        syncWf file = true →
        prepare_data_sync opts file = Except.ok (names, vars) →
        ∀ v ∈ vars, v.samples.length = names.length) ∧
    (∀ (opts : FreqOptions) (file : VcfFile) (names : List String)
        (vars : List Variant),
        vcfWf file = true →
        prepare_data_vcf opts file = Except.ok (names, vars) →
        ∀ v ∈ vars, v.samples.length = names.length) := by
  refine ⟨?_, ?_, ?_⟩
  · intro opts file names vars hwf h
    unfold prepare_data_pileup at h
    cases hs : pileup_samples_step opts file with
    | error e => rw [hs] at h; simp at h
    | ok p =>
      obtain ⟨names0, recs⟩ := p
      rw [hs] at h
      have h3 : (match region_filter_records opts.filter_region
          (fun r => r.chromosome) (fun r => r.position) recs with
        | Except.error e => (Except.error e : Except InputError (List String × List Variant))
        | Except.ok recs2 =>
          Except.ok (names0, recs2.map pileup_convert_to_variant)) =
          Except.ok (names, vars) := h
      cases hrf : region_filter_records opts.filter_region
          (fun r => r.chromosome) (fun r => r.position) recs with
      | error e => rw [hrf] at h3; simp at h3
      | ok recs2 =>
        rw [hrf] at h3
        simp only [Except.ok.injEq, Prod.mk.injEq] at h3
        obtain ⟨hnm, hvars⟩ := h3
        subst hnm; subst hvars
        intro v hv
        simp only [List.mem_map] at hv
        obtain ⟨r, hr, hconv⟩ := hv
        subst hconv
        have hrin := region_filter_records_mem _ _ _ _ _ hrf r hr
        exact pileup_samples_step_length opts file _ recs hwf hs r hrin
  · intro opts file names vars hwf h
    unfold prepare_data_sync at h
    cases hs : sync_samples_step opts file with
    | error e => rw [hs] at h; simp at h
    | ok p =>
      obtain ⟨names0, recs⟩ := p
      rw [hs] at h
      have h3 : (match region_filter_records opts.filter_region
          (fun v => v.chromosome) (fun v => v.position) recs with
        | Except.error e => (Except.error e : Except InputError (List String × List Variant))
        | Except.ok recs2 => Except.ok (names0, recs2)) =
          Except.ok (names, vars) := h
      cases hrf : region_filter_records opts.filter_region
          (fun v => v.chromosome) (fun v => v.position) recs with
      | error e => rw [hrf] at h3; simp at h3
      | ok recs2 =>
        rw [hrf] at h3
        simp only [Except.ok.injEq, Prod.mk.injEq] at h3
        obtain ⟨hnm, hvars⟩ := h3
        subst hnm; subst hvars
        intro v hv
        have hvin := region_filter_records_mem _ _ _ _ _ hrf v hv
        exact sync_samples_step_length opts file _ recs hwf hs v hvin
  · intro opts file names vars hwf h
    unfold prepare_data_vcf at h
    cases hs : vcf_samples_step opts file with
    | error e => rw [hs] at h; simp at h
    | ok p =>
      obtain ⟨names0, recs⟩ := p
      rw [hs] at h
      have h3 : (match region_filter_records opts.filter_region
          (fun r => r.chromosome) (fun r => r.position) recs with
        | Except.error e => (Except.error e : Except InputError (List String × List Variant))
        | Except.ok recs2 =>
          Except.ok (names0, recs2.map vcf_convert_to_variant)) =
          Except.ok (names, vars) := h
      cases hrf : region_filter_records opts.filter_region
          (fun r => r.chromosome) (fun r => r.position) recs with
      | error e => rw [hrf] at h3; simp at h3
      | ok recs2 =>
        rw [hrf] at h3
        simp only [Except.ok.injEq, Prod.mk.injEq] at h3
        obtain ⟨hnm, hvars⟩ := h3
        subst hnm; subst hvars
        intro v hv
        simp only [List.mem_map] at hv
        obtain ⟨r, hr, hconv⟩ := hv
        subst hconv
        have hrin := region_filter_records_mem _ _ _ _ _ hrf r hr
        exact vcf_samples_step_length opts file _ recs hwf hs r hrin

/-- C1 witness: the pileup example with the include filter S1, S3 resolves
two sample names, and the first yielded Variant carries two BaseCounts. -/
theorem C1_sample_count_matches_stream_witness :
    (Variant.mk "chr1" 1 [ex_bc, ex_bc]).samples.length =
      (["S1", "S3"] : List String).length :=
  C1_sample_count_matches_stream.1 ex_opts_pileup ex_pileup ["S1", "S3"]
    [Variant.mk "chr1" 1 [ex_bc, ex_bc], Variant.mk "chr1" 5 [ex_bc, ex_bc]]
    (by decide) (by rfl)
    (Variant.mk "chr1" 1 [ex_bc, ex_bc]) (List.mem_cons_self _ _)

/-- C4: a filter list naming a sample that is not among the resolved sample
names fails with UnknownSampleError naming an offending identifier: in the
resolver, in the whole pileup and sync preparations (no partial stream is
returned), and in the VCF preparation, whose open-time name check is
modelled from the spec. -/
theorem C4_unknown_sample_name_fails :
    (∀ (opts : FreqOptions) (raw : List String) (sn : String),
        sn ∈ active_filter_list opts → sn ∉ raw →
        ∃ sn2, sn2 ∉ raw ∧
          get_sample_filter opts raw =
            Except.error (InputError.unknownSampleError sn2)) ∧
    (∀ (opts : FreqOptions) (file : PileupFile) (first : PileupRecord)
        (rest : List PileupRecord) (sn : String),
        file.records = first :: rest →
        sn ∈ active_filter_list opts →
        sn ∉ make_raw_names opts.sample_name_pre first.samples.length →
        ∃ sn2, prepare_data_pileup opts file =
          Except.error (InputError.unknownSampleError sn2)) ∧
    (∀ (opts : FreqOptions) (file : SyncFile) (first : Variant)
        (rest : List Variant) (sn : String),
        file.records = first :: rest →
        sn ∈ active_filter_list opts →
        sn ∉ make_raw_names opts.sample_name_pre first.samples.length →
        ∃ sn2, prepare_data_sync opts file =
          Except.error (InputError.unknownSampleError sn2)) ∧
    (∀ (opts : FreqOptions) (file : VcfFile) (sn : String),
        sn ∈ opts.filter_samples_include ++ opts.filter_samples_exclude →
        sn ∉ file.header.sample_names →
        ∃ sn2, sn2 ∉ file.header.sample_names ∧
          prepare_data_vcf opts file =
            Except.error (InputError.unknownSampleError sn2)) := by
  refine ⟨?_, ?_, ?_, ?_⟩
  · intro opts raw sn hmem hnot
    exact get_sample_filter_unknown opts raw sn hmem hnot
  · intro opts file first rest sn hrec hmem hnot
    have hfil : (opts.filter_samples_include.isEmpty &&
        opts.filter_samples_exclude.isEmpty) = false := by
      unfold active_filter_list at hmem
      cases hi : opts.filter_samples_include.isEmpty with
      | false => simp [hi]
      | true =>
        rw [hi] at hmem
        simp only [Bool.not_true, Bool.false_eq_true, if_false] at hmem
        cases he : opts.filter_samples_exclude.isEmpty with
        | false => simp [hi, he]
        | true => exact absurd (List.isEmpty_iff.mp he ▸ hmem) (List.not_mem_nil sn)
    obtain ⟨sn2, hs2, herr⟩ := get_sample_filter_unknown opts
      (make_raw_names opts.sample_name_pre first.samples.length) sn hmem hnot
    refine ⟨sn2, ?_⟩
    obtain ⟨records⟩ := file
    simp only at hrec
    subst hrec
    unfold prepare_data_pileup pileup_samples_step
    rw [hfil]
    simp only [Bool.false_eq_true, if_false]
    rw [herr]
  · intro opts file first rest sn hrec hmem hnot
    have hfil : (opts.filter_samples_include.isEmpty &&
        opts.filter_samples_exclude.isEmpty) = false := by
      unfold active_filter_list at hmem
      cases hi : opts.filter_samples_include.isEmpty with
      | false => simp [hi]
      | true =>
        rw [hi] at hmem
        simp only [Bool.not_true, Bool.false_eq_true, if_false] at hmem
        cases he : opts.filter_samples_exclude.isEmpty with
        | false => simp [hi, he]
        | true => exact absurd (List.isEmpty_iff.mp he ▸ hmem) (List.not_mem_nil sn)
    obtain ⟨sn2, hs2, herr⟩ := get_sample_filter_unknown opts
      (make_raw_names opts.sample_name_pre first.samples.length) sn hmem hnot
    refine ⟨sn2, ?_⟩
    obtain ⟨records⟩ := file
    simp only at hrec
    subst hrec
    unfold prepare_data_sync sync_samples_step
    rw [hfil]
    simp only [Bool.false_eq_true, if_false]
    rw [herr]
  · intro opts file sn hmem hnot
    have hp : (!(file.header.sample_names.contains sn)) = true := by
      simp only [Bool.not_eq_true']
      simpa using hnot
    have h1 : ((opts.filter_samples_include ++
        opts.filter_samples_exclude).find?
          (fun n => !(file.header.sample_names.contains n))).isSome :=
      List.find?_isSome.mpr ⟨sn, hmem, hp⟩
    cases hy : (opts.filter_samples_include ++
        opts.filter_samples_exclude).find?
          (fun n => !(file.header.sample_names.contains n)) with
    | none => rw [hy] at h1; simp at h1
    | some y =>
      have hpy := List.find?_some hy
      refine ⟨y, ?_, ?_⟩
      · simp only [Bool.not_eq_true'] at hpy
        simpa using hpy
      · unfold prepare_data_vcf vcf_samples_step vcf_unknown_name
        rw [hy]

/-- C4 witness: the unknown include name S9 fails the resolver over three
synthesized names, fails the pileup preparation and the sync preparation,
and the unknown include name Z fails the VCF preparation, each with
UnknownSampleError. -/
theorem C4_unknown_sample_name_fails_witness :
    (∃ sn2, sn2 ∉ ["S1", "S2", "S3"] ∧
      get_sample_filter ex_opts_unknown ["S1", "S2", "S3"] =
        Except.error (InputError.unknownSampleError sn2)) ∧
    (∃ sn2, prepare_data_pileup ex_opts_unknown ex_pileup =
      Except.error (InputError.unknownSampleError sn2)) ∧
    (∃ sn2, prepare_data_sync ex_opts_sync_unknown ex_sync =
      Except.error (InputError.unknownSampleError sn2)) ∧
    (∃ sn2, sn2 ∉ ex_vcf.header.sample_names ∧
      prepare_data_vcf ex_opts_vcf_unknown ex_vcf =
        Except.error (InputError.unknownSampleError sn2)) :=
  ⟨C4_unknown_sample_name_fails.1 ex_opts_unknown ["S1", "S2", "S3"] "S9"
      (by decide) (by decide),
    C4_unknown_sample_name_fails.2.1 ex_opts_unknown ex_pileup
      ⟨"chr1", 1, [ex_bc, ex_bc, ex_bc]⟩ [⟨"chr1", 5, [ex_bc, ex_bc, ex_bc]⟩]
      "S9" rfl (by decide) (by decide),
    C4_unknown_sample_name_fails.2.2.1 ex_opts_sync_unknown ex_sync
      ⟨"chr1", 1, [ex_bc, ex_bc]⟩ [] "S9" rfl (by decide) (by decide),
    C4_unknown_sample_name_fails.2.2.2 ex_opts_vcf_unknown ex_vcf "Z"
      (by decide) (by decide)⟩

/-- C8: with an empty region, a successfully prepared VCF stream yields
exactly the conversions of the records that are single-nucleotide,
biallelic and carry the AD field, in order; a Variant is in the stream iff
it converts such a record, so indels, multiallelic records and records
without AD are silently excluded rather than raising an error. -/
theorem C8_vcf_content_filter (opts : FreqOptions) (file : VcfFile)
    (names : List String) (vars : List Variant)
    (hreg : opts.filter_region = "")
    (h : prepare_data_vcf opts file = Except.ok (names, vars)) :
    vars = ((file.records.map (vcf_column_filter opts file.header)).filter
        vcf_keep_record).map vcf_convert_to_variant ∧
    ∀ v : Variant, v ∈ vars ↔ ∃ r ∈ file.records, vcf_keep_record r = true ∧
      v = vcf_convert_to_variant (vcf_column_filter opts file.header r) := by
  unfold prepare_data_vcf at h
  cases hs : vcf_samples_step opts file with
  | error e => rw [hs] at h; simp at h
  | ok p =>
    obtain ⟨names0, recs⟩ := p
    rw [hs] at h
    have h3 : (match region_filter_records opts.filter_region
        (fun r => r.chromosome) (fun r => r.position) recs with
      | Except.error e => (Except.error e : Except InputError (List String × List Variant))
      | Except.ok recs2 =>
        Except.ok (names0, recs2.map vcf_convert_to_variant)) =
        Except.ok (names, vars) := h
    rw [hreg, region_filter_records_empty] at h3
    have h4 : Except.ok (names0, recs.map vcf_convert_to_variant) =
        (Except.ok (names, vars) : Except InputError (List String × List Variant)) := h3
    simp only [Except.ok.injEq, Prod.mk.injEq] at h4
    obtain ⟨hnm, hvars⟩ := h4
    have hrecs : recs = (file.records.map (vcf_column_filter opts file.header)).filter
        vcf_keep_record := by
      unfold vcf_samples_step at hs
      split at hs
      · simp at hs
      · split at hs
        · simp at hs
        · simp only [Except.ok.injEq, Prod.mk.injEq] at hs
          exact hs.2.symm
    subst hvars
    constructor
    · rw [hrecs]
    · intro v
      rw [hrecs]
      simp only [List.mem_map, List.mem_filter]
      constructor
      · rintro ⟨r2, ⟨⟨r, hr, rfl⟩, hkeep⟩, rfl⟩
        exact ⟨r, hr, hkeep, rfl⟩
      · rintro ⟨r, hr, hkeep, rfl⟩
        exact ⟨vcf_column_filter opts file.header r, ⟨⟨r, hr, rfl⟩, hkeep⟩, rfl⟩

/-- C8 witness: of the two example VCF records only the biallelic SNP with
the AD field survives, yielding one Variant over the retained column. -/
theorem C8_vcf_content_filter_witness :
    ([Variant.mk "chr1" 3 [ex_bc]] : List Variant) =
      ((ex_vcf.records.map (vcf_column_filter ex_opts_vcf ex_vcf.header)).filter
        vcf_keep_record).map vcf_convert_to_variant :=
  (C8_vcf_content_filter ex_opts_vcf ex_vcf ["A"] [Variant.mk "chr1" 3 [ex_bc]]
    rfl (by rfl)).1

/-- C10: preparing the data is memoised. A successful preparation leaves a
state on which preparing again returns that very state unchanged, so
sample_names and get_iterator observe one single shared preparation: every
later call returns the cached names and the cached generator without
re-opening the input. -/
theorem C10_prepare_data_memoised (opts : FreqOptions) (st st2 : PreparedState)
    (h : prepare_data opts st = Except.ok st2) :
    prepare_data opts st2 = Except.ok st2 ∧
    call_sample_names opts st2 = Except.ok (st2.sample_names, st2) ∧
    call_get_iterator opts st2 = Except.ok (st2.generator, st2) := by
  have hmain : prepare_data opts st2 = Except.ok st2 := by
    unfold prepare_data at h
    split at h
    · rename_i hguard
      simp only [Except.ok.injEq] at h
      subst h
      unfold prepare_data
      rw [if_pos hguard]
    · split at h
      · simp at h
      · split at h
        · simp at h
        · rename_i hnum hpre
          cases hp : opts.pileup_file with
          | some f =>
            rw [hp] at h
            have h2 : Except.map
                (fun r => ({ generator := some r.2, sample_names := r.1 } : PreparedState))
                (prepare_data_pileup opts f) = Except.ok st2 := h
            cases hpp : prepare_data_pileup opts f with
            | error e => rw [hpp] at h2; simp [Except.map] at h2
            | ok p =>
              rw [hpp] at h2
              simp only [Except.map, Except.ok.injEq] at h2
              subst h2
              simp [prepare_data]
          | none =>
            rw [hp] at h
            cases hsy : opts.sync_file with
            | some f =>
              rw [hsy] at h
              have h2 : Except.map
                  (fun r => ({ generator := some r.2, sample_names := r.1 } : PreparedState))
                  (prepare_data_sync opts f) = Except.ok st2 := h
              cases hpp : prepare_data_sync opts f with
              | error e => rw [hpp] at h2; simp [Except.map] at h2
              | ok p =>
                rw [hpp] at h2
                simp only [Except.map, Except.ok.injEq] at h2
                subst h2
                simp [prepare_data]
            | none =>
              rw [hsy] at h
              cases hv : opts.vcf_file with
              | some f =>
                rw [hv] at h
                have h2 : Except.map
                    (fun r => ({ generator := some r.2, sample_names := r.1 } : PreparedState))
                    (prepare_data_vcf opts f) = Except.ok st2 := h
                cases hpp : prepare_data_vcf opts f with
                | error e => rw [hpp] at h2; simp [Except.map] at h2
                | ok p =>
                  rw [hpp] at h2
                  simp only [Except.map, Except.ok.injEq] at h2
                  subst h2
                  simp [prepare_data]
              | none =>
                exfalso
                simp [num_inputs, hp, hsy, hv] at hnum
  refine ⟨hmain, ?_, ?_⟩
  · unfold call_sample_names
    rw [hmain]
    rfl
  · unfold call_get_iterator
    rw [hmain]
    rfl

/-- C10 witness: after preparing the sync example from the fresh state, a
second preparation and both getters return the cached state unchanged. -/
theorem C10_prepare_data_memoised_witness :
    prepare_data ex_opts_sync ex_prepared = Except.ok ex_prepared ∧
    call_sample_names ex_opts_sync ex_prepared =
      Except.ok (ex_prepared.sample_names, ex_prepared) ∧
    call_get_iterator ex_opts_sync ex_prepared =
      Except.ok (ex_prepared.generator, ex_prepared) :=
  C10_prepare_data_memoised ex_opts_sync ex_state0 ex_prepared (by rfl)

end Grenedalf
